import Mathlib

/-!
Verification of the claude-code-zed hybrid protocol server (Rust sources under
`claude-code-server/src` and the Zed extension shims) against its
natural-language specification.  The Rust code is shallowly embedded: pure
functions become Lean functions, JSON values become an inductive `J`, strings
become `List Char` where byte/UTF-16 arithmetic matters, and I/O is
parameterized by explicit oracles.  Rust indexing that can panic is modelled
with `Option`-returning functions (`none` = panic).
-/

/-- Minimal JSON value model for the serde_json values the server builds. -/
inductive J where
  | null : J
  | bool : Bool → J
  | num : Int → J
  | str : String → J
  | arr : List J → J
  | obj : List (String × J) → J

/-- Keys of a JSON object, in order ([] for non-objects). -/
def jKeys : J → List String
  | J.obj fields => fields.map (fun f => f.1)
  | _ => []

/-- Field lookup in a JSON object (first match), mirroring serde_json `get`. -/
def jLookup : J → String → Option J
  | J.obj fields, k => (fields.find? (fun f => f.1 = k)).map (fun f => f.2)
  | _, _ => none

/-- Mirrors `v.get(k).and_then(|x| x.as_str())` from serde_json. -/
def jGetStr (v : J) (k : String) : Option String :=
  match jLookup v k with
  | some (J.str s) => some s
  | _ => none

/-- Mirrors `v.get(k).and_then(|x| x.as_bool())` from serde_json. -/
def jGetBool (v : J) (k : String) : Option Bool :=
  match jLookup v k with
  | some (J.bool b) => some b
  | _ => none

/-- Rust `char::len_utf16()`: 1 for BMP scalars, 2 for supplementary planes. -/
def len16 (c : Char) : Nat :=
  if c.val < 0x10000 then 1 else 2

/-- UTF-8 byte length of a sequence of chars (Rust `str::len()`). -/
def byteLen (l : List Char) : Nat :=
  (l.map Char.utf8Size).sum

/-- UTF-16 code-unit length of a sequence of chars. -/
def utf16Len (l : List Char) : Nat :=
  (l.map len16).sum

/-- Prefix of `l` delimited by the UTF-16 code-unit position `t`
(the longest prefix whose UTF-16 length is at most `t`). -/
def utf16Take : List Char → Nat → List Char
  | [], _ => []
  | c :: cs, t => if len16 c ≤ t then c :: utf16Take cs (t - len16 c) else []

/-- Suffix of `l` after the UTF-16 code-unit position `t`. -/
def utf16Drop : List Char → Nat → List Char
  | [], _ => []
  | c :: cs, t => if len16 c ≤ t then utf16Drop cs (t - len16 c) else c :: cs

/-- Whether `t` is the UTF-16 length of some prefix of `l` (a valid UTF-16 position):
the accumulator of the conversion walk actually reaches `t`. -/
def isUtf16Boundary : List Char → Nat → Bool
  | [], t => t = 0
  | c :: cs, t =>
    if t = 0 then true
    else if len16 c ≤ t then isUtf16Boundary cs (t - len16 c) else false

/-- Rust byte slicing `&line[..b]` : fails (panics) unless `b` is a char
boundary, otherwise returns the prefix of byte length `b`. -/
def byteTakeChecked : List Char → Nat → Option (List Char)
  | [], b => if b = 0 then some [] else none
  | c :: cs, b =>
    if b = 0 then some []
    else if c.utf8Size ≤ b then (byteTakeChecked cs (b - c.utf8Size)).map (fun p => c :: p)
    else none

/-- Rust byte slicing `&line[b..]` : fails (panics) unless `b` is a char
boundary, otherwise returns the suffix after byte offset `b`. -/
def byteDropChecked : List Char → Nat → Option (List Char)
  | [], b => if b = 0 then some [] else none
  | c :: cs, b =>
    if b = 0 then some (c :: cs)
    else if c.utf8Size ≤ b then byteDropChecked cs (b - c.utf8Size) else none

/-- Rust `&line[b1..b2]` (with `b1 ≤ b2` already checked by the caller):
take the first `b2` bytes, then drop the first `b1` of those. -/
def rustSliceRange (l : List Char) (b1 b2 : Nat) : Option (List Char) :=
  (byteTakeChecked l b2).bind (fun p => byteDropChecked p b1)

/-- Embedding of `ClaudeCodeLanguageServer::char_pos_to_byte_pos` (lsp.rs
lines 90-114): the loop over `line.char_indices()` with the running UTF-16
accumulator `cur` and byte position `bytePos`. -/
def cptbAux : List Char → Nat → Nat → Nat → Option Nat
  | [], target, bytePos, cur =>
    if cur = target then some bytePos else none
  | c :: cs, target, bytePos, cur =>
    if cur = target then some bytePos
    else if target < cur + len16 c then some bytePos
    else cptbAux cs target (bytePos + c.utf8Size) (cur + len16 c)

/-- Wrapper `char_pos_to_byte_pos(line, utf16_pos)` from lsp.rs: convert an LSP UTF-16
code-unit position to a UTF-8 byte position within the line. -/
def char_pos_to_byte_pos (line : List Char) (utf16_pos : Nat) : Option Nat :=
  cptbAux line utf16_pos 0 0

/-- Accumulator-free restatement of the conversion walk, used for proofs and
proved equal to `char_pos_to_byte_pos`. -/
def byteOffsetOfUtf16 : List Char → Nat → Option Nat
  | [], t => if t = 0 then some 0 else none
  | c :: cs, t =>
    if t = 0 then some 0
    else if t < len16 c then some 0
    else (byteOffsetOfUtf16 cs (t - len16 c)).map (fun b => b + c.utf8Size)

/-- An LSP position: `line` and `character` are in UTF-16 code units. -/
structure Pos where
  line : Nat
  character : Nat
deriving DecidableEq

/-- An LSP range. The field `stop` embeds the source's `end` field
(`end` is reserved in Lean). -/
structure Range where
  start : Pos
  stop : Pos
deriving DecidableEq

/-- One iteration of the multi-line loop of `read_text_from_range` (lsp.rs
145-168) at line index `idx`: first line from `start.character` to the end,
last line up to `stop.character`, middle lines whole; a `\n` follows every
line except the last; a missing line contributes nothing (no newline either).
`none` models a Rust slicing panic. -/
def multiPart (lines : List (List Char)) (r : Range) (idx : Nat) : Option (List Char) :=
  match lines[idx]? with
  | none => some []
  | some line =>
    let piece : Option (List Char) :=
      if idx = r.start.line then
        match char_pos_to_byte_pos line r.start.character with
        | some start_byte => byteDropChecked line start_byte
        | none => some []
      else if idx = r.stop.line then
        match char_pos_to_byte_pos line r.stop.character with
        | some end_byte => byteTakeChecked line end_byte
        | none => some []
      else some line
    piece.map (fun p => p ++ if idx < r.stop.line then [Char.ofNat 10] else [])

/-- The multi-line branch of `read_text_from_range`: fold the loop body over
the inclusive index range `start.line ..= stop.line`. -/
def read_multi (lines : List (List Char)) (r : Range) : Option (List Char) :=
  (List.range' r.start.line (r.stop.line + 1 - r.start.line)).foldl
    (fun acc idx => acc.bind (fun s => (multiPart lines r idx).map (fun p => s ++ p)))
    (some [])

/-- Embedding of `ClaudeCodeLanguageServer::read_text_from_range` (lsp.rs
116-180). The file system read is abstracted: `content` is `none` when
`fs::read_to_string` fails and otherwise the content already split by
`content.lines()`. The outer `Option` models panic-freedom of the byte
slicing (`none` = a slice fell on a non-boundary); the source returns
`String::new()` on every read/lookup/conversion failure path. -/
def read_text_from_range (content : Option (List (List Char))) (r : Range) :
    Option (List Char) :=
  match content with
  | none => some []
  | some lines =>
    if r.start.line = r.stop.line then
      match lines[r.start.line]? with
      | some line =>
        match char_pos_to_byte_pos line r.start.character,
              char_pos_to_byte_pos line r.stop.character with
        | some start_byte, some end_byte =>
          if start_byte ≤ end_byte then rustSliceRange line start_byte end_byte
          else some []
        | some _, none => some []
        | none, _ => some []
      | none => some []
    else read_multi lines r

/-- Join text lines with `\n` (no trailing newline). -/
def joinNL : List (List Char) → List Char
  | [] => []
  | [x] => x
  | x :: y :: xs => x ++ Char.ofNat 10 :: joinNL (y :: xs)

/-- The selection text as the specification words it (§4.3): single-line
ranges slice the line between the two UTF-16 positions; multi-line ranges
take the first line from `start.character` to end-of-line, every middle
line verbatim, the last line up to `stop.character`, joined by `\n`.
Written from the spec, to be compared with `read_text_from_range`. -/
def specSelectionText (lines : List (List Char)) (r : Range) : List Char :=
  if r.start.line = r.stop.line then
    utf16Drop (utf16Take ((lines[r.start.line]?).getD []) r.stop.character)
      r.start.character
  else
    joinNL (utf16Drop ((lines[r.start.line]?).getD []) r.start.character ::
      ((List.range' (r.start.line + 1) (r.stop.line - r.start.line - 1)).map
        (fun i => (lines[i]?).getD []) ++
       [utf16Take ((lines[r.stop.line]?).getD []) r.stop.character]))

/-- The range is well-formed for `lines`: it lies within the file, both
character positions are valid UTF-16 positions of their lines, and a
single-line range is not reversed. -/
def validRange (lines : List (List Char)) (r : Range) : Bool :=
  decide (r.start.line ≤ r.stop.line) &&
  decide (r.stop.line < lines.length) &&
  isUtf16Boundary ((lines[r.start.line]?).getD []) r.start.character &&
  isUtf16Boundary ((lines[r.stop.line]?).getD []) r.stop.character &&
  (decide (r.start.line ≠ r.stop.line) || decide (r.start.character ≤ r.stop.character))

/-- The `selection_changed` payload built by `code_action` (lsp.rs 324-349):
its `text` field is exactly the output of `read_text_from_range`. -/
structure SelectionChangedNotification where
  text : List Char
  selectionStart : Pos
  selectionStop : Pos
  isEmpty : Bool

/-- Embedding of `code_action` building the notification for a file with the given
(abstracted) content and the requested range. -/
def code_action_notification (content : Option (List (List Char))) (r : Range) :
    Option SelectionChangedNotification :=
  (read_text_from_range content r).map
    (fun t => ⟨t, r.start, r.stop, decide (r.start = r.stop)⟩)

/-! ## WebSocket endpoint: tool registry and JSON-RPC dispatch -/

/-- Structure `ToolError` from tools.rs. -/
structure ToolError where
  code : Int
  message : String
  data : Option J

def tool_invalid_params (message : String) : ToolError :=
  ⟨-32602, message, none⟩

def tool_internal_error (message : String) : ToolError :=
  ⟨-32603, message, none⟩

def tool_not_found (name : String) : ToolError :=
  ⟨-32601, "Tool not found: " ++ name, none⟩

/-- I/O oracle for the tool handlers: `readFile` models
`std::fs::read_to_string` (`none` = error), `writeOk` models whether
`std::fs::write` succeeds, `cwd` models `std::env::current_dir()`. -/
structure Env where
  readFile : String → Option String
  writeOk : String → Bool
  cwd : Option String

/-- Embedding of `handle_open_file` (tools.rs 220-232). The OS error text is abstracted. -/
def handle_open_file (env : Env) (args : J) : Except ToolError J :=
  match jGetStr args "path" with
  | none => Except.error (tool_invalid_params "Missing path parameter")
  | some path =>
    match env.readFile path with
    | some content => Except.ok (J.obj [("path", J.str path), ("content", J.str content)])
    | none => Except.error (tool_internal_error "Failed to read file")

/-- Embedding of `handle_get_current_selection` (tools.rs 234-241). -/
def handle_get_current_selection (_env : Env) (_args : J) : Except ToolError J :=
  Except.ok (J.obj [("selection", J.str ""), ("path", J.str ""),
    ("line", J.num 0), ("column", J.num 0)])

/-- Embedding of `handle_get_open_editors` (tools.rs 243-247). -/
def handle_get_open_editors (_env : Env) (_args : J) : Except ToolError J :=
  Except.ok (J.obj [("editors", J.arr [])])

/-- Embedding of `handle_save_document` (tools.rs 249-265). -/
def handle_save_document (env : Env) (args : J) : Except ToolError J :=
  match jGetStr args "path" with
  | none => Except.error (tool_invalid_params "Missing path parameter")
  | some path =>
    match jGetStr args "content" with
    | none => Except.error (tool_invalid_params "Missing content parameter")
    | some _content =>
      if env.writeOk path then
        Except.ok (J.obj [("path", J.str path), ("saved", J.bool true)])
      else Except.error (tool_internal_error "Failed to save file")

/-- Embedding of `handle_get_workspace_folders` (tools.rs 267-278). -/
def handle_get_workspace_folders (env : Env) (_args : J) : Except ToolError J :=
  match env.cwd with
  | some cwd => Except.ok (J.obj [("folders", J.arr [J.str cwd])])
  | none => Except.ok (J.obj [("folders", J.arr [])])

/-- Embedding of `create_default_registry` (tools.rs 124-217): the five registered tools,
keyed by name. -/
def create_default_registry : List (String × (Env → J → Except ToolError J)) :=
  [("openFile", handle_open_file),
   ("getCurrentSelection", handle_get_current_selection),
   ("getOpenEditors", handle_get_open_editors),
   ("saveDocument", handle_save_document),
   ("getWorkspaceFolders", handle_get_workspace_folders)]

/-- Embedding of `ToolRegistry::call_tool` (tools.rs 94-110): look the handler up by name,
`NotFound` otherwise, and surface the handler's result or error verbatim. -/
def call_tool (env : Env) (name : String) (args : J) : Except ToolError J :=
  match create_default_registry.find? (fun t => t.1 = name) with
  | none => Except.error (tool_not_found name)
  | some t => t.2 env args

/-- The declarative tool list served by `tools/list`
(`ToolRegistry::get_tool_list`, schemas from tools.rs 124-217). -/
def default_tool_schemas : List J :=
  [J.obj [("name", J.str "openFile"),
     ("description", J.str "Opens a file in the editor"),
     ("inputSchema", J.obj [("type", J.str "object"),
       ("properties", J.obj [("path", J.obj [("type", J.str "string"),
         ("description", J.str "Path to the file to open")])]),
       ("required", J.arr [J.str "path"])])],
   J.obj [("name", J.str "getCurrentSelection"),
     ("description", J.str "Gets the current text selection in the editor"),
     ("inputSchema", J.obj [("type", J.str "object"),
       ("properties", J.obj []), ("required", J.arr [])])],
   J.obj [("name", J.str "getOpenEditors"),
     ("description", J.str "Gets a list of currently open editors"),
     ("inputSchema", J.obj [("type", J.str "object"),
       ("properties", J.obj []), ("required", J.arr [])])],
   J.obj [("name", J.str "saveDocument"),
     ("description", J.str "Saves a document with the given content"),
     ("inputSchema", J.obj [("type", J.str "object"),
       ("properties", J.obj [("path", J.obj [("type", J.str "string"),
         ("description", J.str "Path to the file to save")]),
        ("content", J.obj [("type", J.str "string"),
         ("description", J.str "Content to save")])]),
       ("required", J.arr [J.str "path", J.str "content"])])],
   J.obj [("name", J.str "getWorkspaceFolders"),
     ("description", J.str "Gets the current workspace folders"),
     ("inputSchema", J.obj [("type", J.str "object"),
       ("properties", J.obj []), ("required", J.arr [])])]]

/-- JSON-RPC request (websocket.rs 22-28). -/
structure JsonRpcRequest where
  jsonrpc : String
  method : String
  params : Option J
  id : Option J

/-- JSON-RPC error object (websocket.rs 38-43). -/
structure JsonRpcError where
  code : Int
  message : String
  data : Option J

/-- JSON-RPC response (websocket.rs 30-36). -/
structure JsonRpcResponse where
  jsonrpc : String
  result : Option J
  error : Option JsonRpcError
  id : Option J

/-- The `initialize` result payload (websocket.rs 486-506). -/
def initialize_result : J :=
  J.obj [("protocolVersion", J.str "2024-11-05"),
    ("capabilities", J.obj [("logging", J.obj []),
      ("prompts", J.obj [("listChanged", J.bool true)]),
      ("resources", J.obj [("subscribe", J.bool true), ("listChanged", J.bool true)]),
      ("tools", J.obj [("listChanged", J.bool true)])]),
    ("serverInfo", J.obj [("name", J.str "claude-code-server"),
      ("version", J.str "0.1.0")])]

/-- The `tools/call` branch of `handle_jsonrpc_request` (websocket.rs
528-581): extract the tool name and arguments, delegate to the registry, and
wrap the outcome; every sub-case produces a response. -/
def handle_tools_call_ws (env : Env) (params : Option J) (id : Option J) :
    JsonRpcResponse :=
  match params.bind (fun p => jGetStr p "name") with
  | some name =>
    match call_tool env name ((params.bind (fun p => jLookup p "arguments")).getD (J.obj [])) with
    | Except.ok result => ⟨"2.0", some result, none, id⟩
    | Except.error tool_error =>
      ⟨"2.0", none, some ⟨tool_error.code, tool_error.message, tool_error.data⟩, id⟩
  | none =>
    ⟨"2.0", none, some ⟨-32602, "Invalid params",
      some (J.obj [("error", J.str "Missing tool name")])⟩, id⟩

/-- Embedding of `handle_jsonrpc_request` (websocket.rs 471-613): route the
request by method; notifications (the three notification methods, and unknown
methods without an id) produce no response. -/
def handle_jsonrpc_request (env : Env) (request : JsonRpcRequest) :
    Option JsonRpcResponse :=
  let id := request.id
  if request.method = "initialize" then
    some ⟨"2.0", some initialize_result, none, id⟩
  else if request.method = "prompts/list" then
    some ⟨"2.0", some (J.obj [("prompts", J.arr [])]), none, id⟩
  else if request.method = "tools/list" then
    some ⟨"2.0", some (J.obj [("tools", J.arr default_tool_schemas)]), none, id⟩
  else if request.method = "tools/call" then
    some (handle_tools_call_ws env request.params id)
  else if request.method = "notifications/initialized" then none
  else if request.method = "selection_changed" then none
  else if request.method = "at_mentioned" then none
  else if id.isSome then
    some ⟨"2.0", none, some ⟨-32601, "Method not found",
      some (J.obj [("method", J.str request.method)])⟩, id⟩
  else none

/-- The methods `handle_jsonrpc_request` answers even without an id. -/
def requestMethods : List String :=
  ["initialize", "prompts/list", "tools/list", "tools/call"]

/-- The methods `handle_jsonrpc_request` treats as notifications. -/
def notificationMethods : List String :=
  ["notifications/initialized", "selection_changed", "at_mentioned"]

/-! ## Lock file -/

/-- The immutable per-process server configuration
(`ServerState`, websocket.rs 101-131, minus the live connection table). -/
structure ServerState where
  auth_token : String
  workspace_folders : List String
  ide_name : String

/-- The JSON document written by `create_lock_file` (websocket.rs 141-189),
with the process id, port and timestamp supplied by the environment. Field
order is the order of the `serde_json::json!` literal. -/
def create_lock_file_data (pid : Nat) (port : Nat) (timestamp : Nat)
    (st : ServerState) : J :=
  J.obj [("processId", J.num pid),
    ("workspaceFolders", J.arr (st.workspace_folders.map J.str)),
    ("ideName", J.str st.ide_name),
    ("authToken", J.str st.auth_token),
    ("port", J.num port),
    ("timestamp", J.num timestamp)]

/-! ## MCP dispatcher (mcp.rs) -/

/-- A `TextContent` item `{type:"text", text}` (mcp.rs 67-72). -/
def textContent (s : String) : J :=
  J.obj [("type", J.str "text"), ("text", J.str s)]

/-- ASCII apostrophe, written by code point to keep the file free of quote
characters outside literals. -/
def apos : String := String.singleton (Char.ofNat 39)

/-- The per-tool content of `MCPServer::handle_tools_call` (mcp.rs 368-545);
`cwd` abstracts `std::env::current_dir()`. Unknown tools are the error path. -/
def mcp_tool_content (cwd : Option String) (tool_name : String) (arguments : J) :
    Except String (List J) :=
  if tool_name = "echo" then
    Except.ok [textContent ("Echo: " ++ (jGetStr arguments "text").getD "No text provided")]
  else if tool_name = "get_workspace_info" then
    Except.ok [textContent ("Current workspace: " ++ cwd.getD "Unknown workspace")]
  else if tool_name = "closeAllDiffTabs" then
    Except.ok [textContent "All diff tabs have been closed"]
  else if tool_name = "openFile" then
    let file_path := (jGetStr arguments "filePath").getD "No file path provided"
    let preview := (jGetBool arguments "preview").getD false
    let response := "Opened file: " ++ file_path ++
      (if preview then " (preview mode)" else "") ++
      (match jGetStr arguments "startText" with
       | some s => " with selection starting at " ++ apos ++ s ++ apos ++
         (match jGetStr arguments "endText" with
          | some e => " ending at " ++ apos ++ e ++ apos
          | none => "")
       | none => "")
    Except.ok [textContent response]
  else if tool_name = "getCurrentSelection" then
    Except.ok [textContent "No text currently selected"]
  else if tool_name = "getOpenEditors" then
    Except.ok [textContent "No editors currently open"]
  else if tool_name = "getWorkspaceFolders" then
    Except.ok [textContent ("Workspace folders: [" ++ cwd.getD "Unknown workspace" ++ "]")]
  else if tool_name = "openDiff" then
    let old_file_path := (jGetStr arguments "old_file_path").getD "No old file path provided"
    let new_file_path := (jGetStr arguments "new_file_path").getD "No new file path provided"
    let tab_name := (jGetStr arguments "tab_name").getD "diff"
    Except.ok [textContent ("Opened diff view in tab " ++ apos ++ tab_name ++ apos ++
      " comparing " ++ old_file_path ++ " and " ++ new_file_path)]
  else if tool_name = "getLatestSelection" then
    Except.ok [textContent "No recent text selection found"]
  else if tool_name = "getDiagnostics" then
    Except.ok [textContent (match jGetStr arguments "uri" with
      | some uri => "No diagnostics found for " ++ uri
      | none => "No diagnostics found in workspace")]
  else if tool_name = "checkDocumentDirty" then
    Except.ok [textContent ("Document " ++
      (jGetStr arguments "filePath").getD "No file path provided" ++
      " has no unsaved changes")]
  else if tool_name = "saveDocument" then
    Except.ok [textContent ("Document " ++
      (jGetStr arguments "filePath").getD "No file path provided" ++
      " saved successfully")]
  else if tool_name = "close_tab" then
    Except.ok [textContent ("Tab " ++ apos ++
      (jGetStr arguments "tab_name").getD "No tab name provided" ++ apos ++
      " has been closed")]
  else if tool_name = "executeCode" then
    let code := (jGetStr arguments "code").getD "No code provided"
    Except.ok [textContent ("Code executed successfully. Output: (simulated execution of " ++
      toString code.length ++ " characters)")]
  else Except.error ("Unknown tool: " ++ tool_name)

/-- Embedding of `MCPServer::handle_tools_call` (mcp.rs 355-551): on success the content
items are wrapped in the `{content, isError:false}` envelope; failures are
`anyhow` errors (modelled as `Except.error`). -/
def mcp_handle_tools_call (cwd : Option String) (params : Option J) :
    Except String J :=
  match params with
  | none => Except.error "Missing parameters for tools/call"
  | some p =>
    match jGetStr p "name" with
    | none => Except.error "Missing tool name"
    | some tool_name =>
      (mcp_tool_content cwd tool_name ((jLookup p "arguments").getD (J.obj []))).map
        (fun content => J.obj [("content", J.arr content), ("isError", J.bool false)])

/-- The `{type:"text", text:...}` shape of one content item. -/
def isTextItem : J → Bool
  | J.obj [("type", J.str t), ("text", J.str _)] => t = "text"
  | _ => false

/-- The claim's tool-result envelope shape:
`{content:[{type:"text", text:...}, ...], isError:false}`. -/
def envelopeShape : J → Bool
  | J.obj [("content", J.arr items), ("isError", J.bool e)] => items.all isTextItem && !e
  | _ => false

/-! ## WebSocket handshake (websocket.rs 305-349 and 1031-1061) -/

/-- An HTTP upgrade request, reduced to its headers (names lowercased). -/
structure UpgradeRequest where
  headers : List (String × String)

/-- First value of a header, if present. -/
def headerValue (req : UpgradeRequest) (name : String) : Option String :=
  (req.headers.find? (fun h => h.1 = name)).map (fun h => h.2)

/-- Modelled from the source: `accept_async_with_context` (websocket.rs
1031-1061) only peeks at the stream for logging and then delegates to
`tokio_tungstenite::accept_async` with no header callback, so the outcome
depends solely on the standard WebSocket handshake headers checked by that
external library (modelled here), never on any custom header such as
`x-claude-code-ide-authorization`. -/
def accept_async_with_context (req : UpgradeRequest) : Bool :=
  match headerValue req "connection", headerValue req "upgrade",
        headerValue req "sec-websocket-key", headerValue req "sec-websocket-version" with
  | some conn, some upg, some _, some ver =>
    decide (conn = "Upgrade" ∨ conn = "upgrade" ∨ conn = "keep-alive, Upgrade") &&
    decide (upg = "websocket" ∨ upg = "WebSocket") && decide (ver = "13")
  | _, _, _, _ => false

/-- Embedding of `handle_connection` (websocket.rs 305-349): if the handshake succeeds,
unconditionally allocate a connection id and insert a connection record; the
configured token `_auth_token` is never consulted. Returns (upgraded?,
connection table afterwards). -/
def handle_connection (_auth_token : String) (connections : List String)
    (connection_id : String) (req : UpgradeRequest) : Bool × List String :=
  if accept_async_with_context req then (true, connection_id :: connections)
  else (false, connections)

/-- The handshake check the specification describes (§4.6): the upgrade may
proceed only when `x-claude-code-ide-authorization` equals the configured
token. Written from the spec for comparison: the source contains no
corresponding code. -/
def spec_auth_ok (auth_token : String) (req : UpgradeRequest) : Bool :=
  decide (headerValue req "x-claude-code-ide-authorization" = some auth_token)

/-! ## Keepalive (websocket.rs 968-1028) -/

/-- timeout_duration in `ping_keepalive_task`. -/
def keepalive_timeout_secs : Nat := 60

/-- The `interval` period of `ping_keepalive_task`. -/
def keepalive_interval_secs : Nat := 30

/-- Connection table plus the set of per-connection tasks still holding their
socket. `records` maps connection ids to `last_pong` (seconds); `sockets`
lists the ids of tasks whose socket is still open. -/
structure KeepaliveState where
  records : List (String × Nat)
  sockets : List String

/-- One tick of `ping_keepalive_task` at time `now` (seconds): every record
whose `last_pong` is strictly older than 60 s is removed from the connection
table. The task holds no handle to any socket (a `ConnectionInfo` is only
`{addr, last_ping, last_pong}`) and signals no task, so the socket set is
untouched. -/
def ping_keepalive_tick (now : Nat) (st : KeepaliveState) : KeepaliveState :=
  { records := st.records.filter (fun c => !decide (keepalive_timeout_secs < now - c.2)),
    sockets := st.sockets }

/-! ## Concrete instances used by witnesses and counterexamples -/

/-- An I/O oracle on which every file operation fails. -/
def env0 : Env := ⟨fun _ => none, fun _ => false, none⟩

/-- An I/O oracle on which every read yields "hello" and writes succeed. -/
def env_read : Env := ⟨fun _ => some "hello", fun _ => true, some "/workspace"⟩

/-- A `tools/call` request for tool `name` with arguments `args`. -/
def toolsCallRequest (name : String) (args : J) (id : Option J) : JsonRpcRequest :=
  ⟨"2.0", "tools/call", some (J.obj [("name", J.str name), ("arguments", args)]), id⟩

/-- A syntactically valid WebSocket upgrade request carrying no
`x-claude-code-ide-authorization` header. -/
def c1req : UpgradeRequest :=
  ⟨[("connection", "Upgrade"), ("upgrade", "websocket"),
    ("sec-websocket-key", "dGhlIHNhbXBsZSBub25jZQ=="),
    ("sec-websocket-version", "13")]⟩

/-- An `initialize` message without an id. -/
def c2reqA : JsonRpcRequest := ⟨"2.0", "initialize", none, none⟩

/-- A `selection_changed` message carrying an id. -/
def c2reqB : JsonRpcRequest := ⟨"2.0", "selection_changed", none, some (J.num 1)⟩

/-- A concrete server configuration. -/
def c3state : ServerState := ⟨"token-abc123", ["/workspace"], "claude-code-server"⟩

/-- A successful `openFile` call. -/
def c7req : JsonRpcRequest :=
  toolsCallRequest "openFile" (J.obj [("path", J.str "/a.txt")]) (some (J.num 2))

/-- One connection whose last pong was at second 0, socket still open. -/
def c8state : KeepaliveState := ⟨[("conn-1", 0)], ["conn-1"]⟩

/-- A three-line file. -/
def c4lines : List (List Char) := [['a', 'b'], ['m', 'm'], ['c', 'd']]

/-- A multi-line range over `c4lines`. -/
def c4range : Range := ⟨⟨0, 1⟩, ⟨2, 1⟩⟩

/-- A line with a supplementary-plane character in the middle
(UTF-16 length 4, UTF-8 length 6). -/
def w_line : List Char := ['a', Char.ofNat 128512, 'b']

/-! ## UTF-16 / byte arithmetic: core lemmas -/

theorem len16_pos (c : Char) : 0 < len16 c := by
  unfold len16; split <;> omega

theorem byteLen_nil : byteLen [] = 0 := rfl

theorem byteLen_cons (c : Char) (l : List Char) :
    byteLen (c :: l) = c.utf8Size + byteLen l := by
  simp [byteLen]

theorem byteLen_append (p q : List Char) :
    byteLen (p ++ q) = byteLen p + byteLen q := by
  simp [byteLen]

theorem utf16Len_nil : utf16Len [] = 0 := rfl

theorem utf16Len_cons (c : Char) (l : List Char) :
    utf16Len (c :: l) = len16 c + utf16Len l := by
  simp [utf16Len]

theorem cptbAux_eq_byteOffset (l : List Char) :
    ∀ t b u, u ≤ t →
      cptbAux l t b u = (byteOffsetOfUtf16 l (t - u)).map (fun x => x + b) := by
  induction l with
  | nil =>
    intro t b u hu
    simp only [cptbAux, byteOffsetOfUtf16]
    by_cases h : u = t
    · subst h; simp
    · have h2 : ¬ (t - u = 0) := by omega
      simp [h, h2]
  | cons c cs ih =>
    intro t b u hu
    simp only [cptbAux, byteOffsetOfUtf16]
    by_cases h : u = t
    · subst h; simp
    · have ht0 : ¬ (t - u = 0) := by omega
      by_cases h2 : t < u + len16 c
      · have h3 : t - u < len16 c := by omega
        simp [h, ht0, h2, h3]
      · have hc : ¬ (t - u < len16 c) := by omega
        have hle : u + len16 c ≤ t := by omega
        rw [if_neg h, if_neg h2, ih t (b + c.utf8Size) (u + len16 c) hle]
        rw [if_neg ht0, if_neg hc]
        have h4 : t - (u + len16 c) = t - u - len16 c := by omega
        rw [h4]
        cases byteOffsetOfUtf16 cs (t - u - len16 c) with
        | none => simp
        | some v => simp; omega

theorem char_pos_to_byte_pos_eq (l : List Char) (t : Nat) :
    char_pos_to_byte_pos l t = byteOffsetOfUtf16 l t := by
  have h := cptbAux_eq_byteOffset l t 0 0 (Nat.zero_le t)
  simpa [char_pos_to_byte_pos] using h

theorem byteOffset_of_boundary (l : List Char) :
    ∀ t, isUtf16Boundary l t = true →
      byteOffsetOfUtf16 l t = some (byteLen (utf16Take l t)) ∧
      utf16Len (utf16Take l t) = t := by
  induction l with
  | nil =>
    intro t ht
    simp only [isUtf16Boundary, decide_eq_true_eq] at ht
    subst ht
    simp [byteOffsetOfUtf16, utf16Take, byteLen_nil, utf16Len_nil]
  | cons c cs ih =>
    intro t ht
    by_cases h0 : t = 0
    · subst h0
      have h1 : ¬ (len16 c ≤ 0) := by have := len16_pos c; omega
      simp [byteOffsetOfUtf16, utf16Take, h1, byteLen_nil, utf16Len_nil]
    · rw [isUtf16Boundary, if_neg h0] at ht
      by_cases hle : len16 c ≤ t
      · rw [if_pos hle] at ht
        obtain ⟨h1, h2⟩ := ih (t - len16 c) ht
        have hnlt : ¬ (t < len16 c) := by omega
        refine ⟨?_, ?_⟩
        · rw [byteOffsetOfUtf16, if_neg h0, if_neg hnlt, h1]
          rw [utf16Take, if_pos hle, byteLen_cons]
          simp [Nat.add_comm]
        · rw [utf16Take, if_pos hle, utf16Len_cons, h2]
          omega
      · rw [if_neg hle] at ht
        exact absurd ht (by simp)

theorem byteOffset_decomp (l : List Char) :
    ∀ t b, byteOffsetOfUtf16 l t = some b →
      ∃ p q, l = p ++ q ∧ b = byteLen p := by
  induction l with
  | nil =>
    intro t b h
    rw [byteOffsetOfUtf16] at h
    split at h
    · obtain rfl : (0 : Nat) = b := by simpa using h
      exact ⟨[], [], rfl, byteLen_nil.symm⟩
    · exact absurd h (by simp)
  | cons c cs ih =>
    intro t b h
    rw [byteOffsetOfUtf16] at h
    split at h
    · obtain rfl : (0 : Nat) = b := by simpa using h
      exact ⟨[], c :: cs, rfl, byteLen_nil.symm⟩
    · split at h
      · obtain rfl : (0 : Nat) = b := by simpa using h
        exact ⟨[], c :: cs, rfl, byteLen_nil.symm⟩
      · rw [Option.map_eq_some'] at h
        obtain ⟨b', hb', rfl⟩ := h
        obtain ⟨p, q, rfl, rfl⟩ := ih _ _ hb'
        exact ⟨c :: p, q, rfl, by rw [byteLen_cons]; omega⟩

theorem byteOffset_mono (l : List Char) :
    ∀ t1 t2 b1 b2, t1 ≤ t2 → byteOffsetOfUtf16 l t1 = some b1 →
      byteOffsetOfUtf16 l t2 = some b2 → b1 ≤ b2 := by
  induction l with
  | nil =>
    intro t1 t2 b1 b2 h h1 h2
    rw [byteOffsetOfUtf16] at h1 h2
    split at h1 <;> split at h2 <;> simp_all
  | cons c cs ih =>
    intro t1 t2 b1 b2 h h1 h2
    rw [byteOffsetOfUtf16] at h1 h2
    by_cases e1 : t1 = 0
    · rw [if_pos e1] at h1
      obtain rfl : (0 : Nat) = b1 := by simpa using h1
      omega
    · rw [if_neg e1] at h1
      by_cases lt1 : t1 < len16 c
      · rw [if_pos lt1] at h1
        obtain rfl : (0 : Nat) = b1 := by simpa using h1
        omega
      · rw [if_neg lt1] at h1
        have e2 : ¬ (t2 = 0) := by omega
        have lt2 : ¬ (t2 < len16 c) := by omega
        rw [if_neg e2, if_neg lt2] at h2
        rw [Option.map_eq_some'] at h1 h2
        obtain ⟨a1, ha1, rfl⟩ := h1
        obtain ⟨a2, ha2, rfl⟩ := h2
        have := ih (t1 - len16 c) (t2 - len16 c) a1 a2 (by omega) ha1 ha2
        omega

theorem byteOffset_inside (c : Char) (q : List Char) (k : Nat)
    (hk1 : 0 < k) (hk2 : k < len16 c) :
    ∀ p, byteOffsetOfUtf16 (p ++ c :: q) (utf16Len p + k) = some (byteLen p) := by
  intro p
  induction p with
  | nil =>
    rw [utf16Len_nil, List.nil_append, byteOffsetOfUtf16]
    rw [if_neg (by omega), if_pos (by omega)]
    rw [byteLen_nil]
  | cons c0 p' ih =>
    have hpos := len16_pos c0
    rw [List.cons_append, byteOffsetOfUtf16, utf16Len_cons]
    rw [if_neg (by omega), if_neg (by omega)]
    have h4 : len16 c0 + utf16Len p' + k - len16 c0 = utf16Len p' + k := by omega
    rw [h4, ih]
    rw [byteLen_cons]
    simp [Nat.add_comm]

theorem byteTakeChecked_zero (l : List Char) : byteTakeChecked l 0 = some [] := by
  cases l <;> simp [byteTakeChecked]

theorem byteDropChecked_zero (l : List Char) : byteDropChecked l 0 = some l := by
  cases l <;> simp [byteDropChecked]

theorem byteTakeChecked_byteLen (p q : List Char) :
    byteTakeChecked (p ++ q) (byteLen p) = some p := by
  induction p with
  | nil =>
    rw [byteLen_nil, List.nil_append]
    exact byteTakeChecked_zero q
  | cons c p' ih =>
    have hpos := Char.utf8Size_pos c
    rw [List.cons_append, byteLen_cons, byteTakeChecked]
    rw [if_neg (by omega), if_pos (by omega)]
    have h : c.utf8Size + byteLen p' - c.utf8Size = byteLen p' := by omega
    rw [h, ih]
    rfl

theorem byteDropChecked_byteLen (p q : List Char) :
    byteDropChecked (p ++ q) (byteLen p) = some q := by
  induction p with
  | nil =>
    rw [byteLen_nil, List.nil_append]
    exact byteDropChecked_zero q
  | cons c p' ih =>
    have hpos := Char.utf8Size_pos c
    rw [List.cons_append, byteLen_cons, byteDropChecked]
    rw [if_neg (by omega), if_pos (by omega)]
    have h : c.utf8Size + byteLen p' - c.utf8Size = byteLen p' := by omega
    rw [h, ih]

theorem exists_append_of_byteLen_le :
    ∀ (p1 q1 p2 q2 : List Char), p1 ++ q1 = p2 ++ q2 → byteLen p1 ≤ byteLen p2 →
      ∃ r, p2 = p1 ++ r := by
  intro p1
  induction p1 with
  | nil =>
    intro q1 p2 q2 _ _
    exact ⟨p2, rfl⟩
  | cons c p1' ih =>
    intro q1 p2 q2 heq hle
    cases p2 with
    | nil =>
      exfalso
      have := Char.utf8Size_pos c
      rw [byteLen_cons, byteLen_nil] at hle
      omega
    | cons c2 p2' =>
      rw [List.cons_append, List.cons_append] at heq
      obtain ⟨rfl, heq'⟩ := List.cons.inj heq
      rw [byteLen_cons, byteLen_cons] at hle
      obtain ⟨r, hr⟩ := ih q1 p2' q2 heq' (by omega)
      exact ⟨r, by rw [hr, List.cons_append]⟩

theorem utf16Take_append_utf16Drop (l : List Char) :
    ∀ t, utf16Take l t ++ utf16Drop l t = l := by
  induction l with
  | nil => intro t; simp [utf16Take, utf16Drop]
  | cons c cs ih =>
    intro t
    rw [utf16Take, utf16Drop]
    split
    · rw [List.cons_append, ih]
    · rw [List.nil_append]

theorem utf16Take_utf16Take (l : List Char) :
    ∀ s e, s ≤ e → utf16Take (utf16Take l e) s = utf16Take l s := by
  induction l with
  | nil => intro s e _; simp [utf16Take]
  | cons c cs ih =>
    intro s e hse
    rw [utf16Take]
    by_cases he : len16 c ≤ e
    · rw [if_pos he, utf16Take]
      by_cases hs : len16 c ≤ s
      · rw [if_pos hs, utf16Take, if_pos hs, ih _ _ (by omega)]
      · rw [if_neg hs, utf16Take, if_neg hs]
    · rw [if_neg he]
      have hs : ¬ (len16 c ≤ s) := by omega
      simp [utf16Take, hs]

theorem utf16Take_full (l : List Char) : utf16Take l (utf16Len l) = l := by
  induction l with
  | nil => simp [utf16Take]
  | cons c cs ih =>
    rw [utf16Len_cons, utf16Take, if_pos (by omega)]
    have h : len16 c + utf16Len cs - len16 c = utf16Len cs := by omega
    rw [h, ih]

theorem isUtf16Boundary_utf16Len (l : List Char) :
    isUtf16Boundary l (utf16Len l) = true := by
  induction l with
  | nil => simp [isUtf16Boundary, utf16Len_nil]
  | cons c cs ih =>
    have := len16_pos c
    rw [utf16Len_cons, isUtf16Boundary]
    rw [if_neg (by omega), if_pos (by omega)]
    have h : len16 c + utf16Len cs - len16 c = utf16Len cs := by omega
    rw [h, ih]

theorem byteTakeChecked_utf16Take (l : List Char) (s : Nat) :
    byteTakeChecked l (byteLen (utf16Take l s)) = some (utf16Take l s) := by
  have h := byteTakeChecked_byteLen (utf16Take l s) (utf16Drop l s)
  rw [utf16Take_append_utf16Drop] at h
  exact h

theorem byteDropChecked_utf16Take (l : List Char) (s : Nat) :
    byteDropChecked l (byteLen (utf16Take l s)) = some (utf16Drop l s) := by
  have h := byteDropChecked_byteLen (utf16Take l s) (utf16Drop l s)
  rw [utf16Take_append_utf16Drop] at h
  exact h

theorem rustSliceRange_take (l : List Char) (s e : Nat) (hse : s ≤ e) :
    rustSliceRange l (byteLen (utf16Take l s)) (byteLen (utf16Take l e)) =
      some (utf16Drop (utf16Take l e) s) := by
  rw [rustSliceRange, byteTakeChecked_utf16Take, Option.some_bind]
  have h := byteDropChecked_utf16Take (utf16Take l e) s
  rw [utf16Take_utf16Take l s e hse] at h
  exact h

theorem joinNL_cons_of_ne_nil (x : List Char) (rest : List (List Char)) (h : rest ≠ []) :
    joinNL (x :: rest) = x ++ Char.ofNat 10 :: joinNL rest := by
  cases rest with
  | nil => exact absurd rfl h
  | cons y ys => rfl

theorem joinNL_map_append (ms : List (List Char)) (last : List Char) :
    joinNL (ms ++ [last]) =
      (ms.map (fun m => m ++ [Char.ofNat 10])).flatten ++ last := by
  induction ms with
  | nil => simp [joinNL]
  | cons m ms ih =>
    rw [List.cons_append, joinNL_cons_of_ne_nil _ _ (by simp), ih]
    simp

theorem foldl_collect (g : Nat → Option (List Char)) (f : Nat → List Char) :
    ∀ (idxs : List Nat) (s : List Char), (∀ i ∈ idxs, g i = some (f i)) →
      idxs.foldl (fun acc idx => acc.bind (fun sp => (g idx).map (fun p => sp ++ p)))
          (some s)
        = some (s ++ (idxs.map f).flatten) := by
  intro idxs
  induction idxs with
  | nil => intro s _; simp
  | cons i is ih =>
    intro s hall
    rw [List.foldl_cons, Option.some_bind, hall i (by simp), Option.map_some']
    rw [ih (s ++ f i) (fun j hj => hall j (by simp [hj]))]
    simp

theorem multiPart_first (lines : List (List Char)) (r : Range) (line : List Char)
    (h : lines[r.start.line]? = some line)
    (hb : isUtf16Boundary line r.start.character = true)
    (hlt : r.start.line < r.stop.line) :
    multiPart lines r r.start.line =
      some (utf16Drop line r.start.character ++ [Char.ofNat 10]) := by
  rw [multiPart, h]
  simp only [if_pos rfl]
  rw [char_pos_to_byte_pos_eq, (byteOffset_of_boundary line _ hb).1]
  simp [byteDropChecked_utf16Take, hlt]

theorem multiPart_mid (lines : List (List Char)) (r : Range) (line : List Char)
    (idx : Nat) (h : lines[idx]? = some line)
    (h1 : ¬ (idx = r.start.line)) (h2 : ¬ (idx = r.stop.line))
    (hlt : idx < r.stop.line) :
    multiPart lines r idx = some (line ++ [Char.ofNat 10]) := by
  rw [multiPart, h]
  simp only [if_neg h1, if_neg h2]
  simp [hlt]

theorem multiPart_last (lines : List (List Char)) (r : Range) (line : List Char)
    (h : lines[r.stop.line]? = some line)
    (hb : isUtf16Boundary line r.stop.character = true)
    (hne : ¬ (r.stop.line = r.start.line)) :
    multiPart lines r r.stop.line = some (utf16Take line r.stop.character) := by
  rw [multiPart, h]
  simp only [if_neg hne, if_pos rfl]
  rw [char_pos_to_byte_pos_eq, (byteOffset_of_boundary line _ hb).1]
  simp [byteTakeChecked_utf16Take]

theorem read_multi_eq (lines : List (List Char)) (r : Range)
    (startLine stopLine : List Char)
    (hfa : lines[r.start.line]? = some startLine)
    (hfz : lines[r.stop.line]? = some stopLine)
    (hlt : r.start.line < r.stop.line)
    (hlen : r.stop.line < lines.length)
    (hbs : isUtf16Boundary startLine r.start.character = true)
    (hbe : isUtf16Boundary stopLine r.stop.character = true) :
    read_multi lines r = some (specSelectionText lines r) := by
  have hne : ¬ (r.start.line = r.stop.line) := by omega
  have hnez : ¬ (r.stop.line = r.start.line) := by omega
  set f : Nat → List Char := fun i =>
    if i = r.start.line then utf16Drop startLine r.start.character ++ [Char.ofNat 10]
    else if i = r.stop.line then utf16Take stopLine r.stop.character
    else (lines[i]?).getD [] ++ [Char.ofNat 10] with hf
  have hall : ∀ i ∈ List.range' r.start.line (r.stop.line + 1 - r.start.line),
      multiPart lines r i = some (f i) := by
    intro i hi
    rw [List.mem_range'_1] at hi
    obtain ⟨hi1, hi2⟩ := hi
    by_cases hia : i = r.start.line
    · subst hia
      rw [multiPart_first lines r startLine hfa hbs hlt, hf]
      simp
    · by_cases hiz : i = r.stop.line
      · subst hiz
        rw [multiPart_last lines r stopLine hfz hbe hnez, hf]
        simp [hia]
      · have hi3 : i < r.stop.line := by omega
        have hilen : i < lines.length := by omega
        have hfi := List.getElem?_eq_getElem hilen
        rw [multiPart_mid lines r lines[i] i hfi hia hiz hi3, hf]
        simp [hia, hiz, hfi]
  rw [read_multi, foldl_collect (multiPart lines r) f _ [] hall, List.nil_append]
  set n := r.stop.line - r.start.line - 1 with hn
  have hcount : r.stop.line + 1 - r.start.line = n + 1 + 1 := by omega
  rw [hcount, List.range'_succ, List.range'_concat]
  have hz : r.start.line + 1 + 1 * n = r.stop.line := by omega
  rw [hz]
  have hmid : (List.range' (r.start.line + 1) n).map f =
      ((List.range' (r.start.line + 1) n).map (fun i => (lines[i]?).getD [])).map
        (fun m => m ++ [Char.ofNat 10]) := by
    rw [List.map_map]
    refine List.map_congr_left ?_
    intro i hi
    rw [List.mem_range'_1] at hi
    have h1 : ¬ (i = r.start.line) := by omega
    have h2 : ¬ (i = r.stop.line) := by omega
    simp [hf, h1, h2]
  have hfa2 : f r.start.line = utf16Drop startLine r.start.character ++ [Char.ofNat 10] := by
    simp [hf]
  have hfz2 : f r.stop.line = utf16Take stopLine r.stop.character := by
    simp [hf, hnez]
  rw [List.map_cons, List.map_append, List.map_singleton, hfa2, hfz2, hmid]
  rw [List.flatten_cons, List.flatten_append]
  rw [specSelectionText, if_neg hne, hfa, hfz]
  simp only [Option.getD_some]
  rw [← hn]
  have hj := joinNL_cons_of_ne_nil (utf16Drop startLine r.start.character)
    ((List.range' (r.start.line + 1) n).map (fun i => (lines[i]?).getD []) ++
      [utf16Take stopLine r.stop.character]) (by simp)
  rw [hj, joinNL_map_append]
  simp

theorem read_single_eq (lines : List (List Char)) (r : Range) (line : List Char)
    (heq : r.start.line = r.stop.line)
    (h : lines[r.start.line]? = some line)
    (hbs : isUtf16Boundary line r.start.character = true)
    (hbe : isUtf16Boundary line r.stop.character = true)
    (hse : r.start.character ≤ r.stop.character) :
    read_text_from_range (some lines) r =
      some (utf16Drop (utf16Take line r.stop.character) r.start.character) := by
  rw [read_text_from_range, if_pos heq, h]
  simp only []
  rw [char_pos_to_byte_pos_eq, char_pos_to_byte_pos_eq,
    (byteOffset_of_boundary line _ hbs).1, (byteOffset_of_boundary line _ hbe).1]
  have hble : byteLen (utf16Take line r.start.character) ≤
      byteLen (utf16Take line r.stop.character) :=
    byteOffset_mono line _ _ _ _ hse
      ((byteOffset_of_boundary line _ hbs).1)
      ((byteOffset_of_boundary line _ hbe).1)
  simp only [if_pos hble]
  exact rustSliceRange_take line _ _ hse

theorem multiPart_isSome (lines : List (List Char)) (r : Range) (idx : Nat) :
    (multiPart lines r idx).isSome = true := by
  rw [multiPart]
  cases hl : lines[idx]? with
  | none => rfl
  | some line =>
    simp only []
    by_cases h1 : idx = r.start.line
    · rw [if_pos h1]
      cases hc : char_pos_to_byte_pos line r.start.character with
      | none => simp
      | some sb =>
        rw [char_pos_to_byte_pos_eq] at hc
        obtain ⟨p, q, hpq, rfl⟩ := byteOffset_decomp line _ _ hc
        subst hpq
        simp only []
        rw [byteDropChecked_byteLen]
        simp
    · rw [if_neg h1]
      by_cases h2 : idx = r.stop.line
      · rw [if_pos h2]
        cases hc : char_pos_to_byte_pos line r.stop.character with
        | none => simp
        | some eb =>
          rw [char_pos_to_byte_pos_eq] at hc
          obtain ⟨p, q, hpq, rfl⟩ := byteOffset_decomp line _ _ hc
          subst hpq
          simp only []
          rw [byteTakeChecked_byteLen]
          simp
      · rw [if_neg h2]
        simp

theorem read_multi_isSome (lines : List (List Char)) (r : Range) :
    (read_multi lines r).isSome = true := by
  rw [read_multi]
  have hall : ∀ i ∈ List.range' r.start.line (r.stop.line + 1 - r.start.line),
      multiPart lines r i = some ((multiPart lines r i).getD []) := by
    intro i _
    have hi := multiPart_isSome lines r i
    obtain ⟨v, hv⟩ := Option.isSome_iff_exists.mp hi
    rw [hv]
    rfl
  rw [foldl_collect (multiPart lines r) (fun i => (multiPart lines r i).getD []) _ [] hall]
  rfl

theorem rustSliceRange_isSome (line : List Char) (t1 t2 b1 b2 : Nat)
    (h1 : char_pos_to_byte_pos line t1 = some b1)
    (h2 : char_pos_to_byte_pos line t2 = some b2)
    (hle : b1 ≤ b2) : (rustSliceRange line b1 b2).isSome = true := by
  rw [char_pos_to_byte_pos_eq] at h1 h2
  obtain ⟨p1, q1, hl1, rfl⟩ := byteOffset_decomp line _ _ h1
  obtain ⟨p2, q2, hl2, rfl⟩ := byteOffset_decomp line _ _ h2
  obtain ⟨rmid, hr⟩ := exists_append_of_byteLen_le p1 q1 p2 q2 (hl1.symm.trans hl2) hle
  rw [rustSliceRange, hl2, byteTakeChecked_byteLen, Option.some_bind, hr,
    byteDropChecked_byteLen]
  rfl

theorem read_text_from_range_isSome (content : Option (List (List Char))) (r : Range) :
    (read_text_from_range content r).isSome = true := by
  cases content with
  | none => rfl
  | some lines =>
    rw [read_text_from_range]
    split
    · cases hl : lines[r.start.line]? with
      | none => rfl
      | some line =>
        simp only []
        cases h1 : char_pos_to_byte_pos line r.start.character with
        | none => rfl
        | some sb =>
          cases h2 : char_pos_to_byte_pos line r.stop.character with
          | none => rfl
          | some eb =>
            simp only []
            split
            · exact rustSliceRange_isSome line _ _ sb eb h1 h2 (by omega)
            · rfl
    · exact read_multi_isSome lines r

/-! ## Dispatcher lemmas -/

theorem handle_tools_call_ws_id (env : Env) (params : Option J) (id : Option J) :
    (handle_tools_call_ws env params id).id = id := by
  rw [handle_tools_call_ws]
  cases params.bind (fun p => jGetStr p "name") with
  | none => rfl
  | some name =>
    simp only []
    cases call_tool env name ((params.bind (fun p => jLookup p "arguments")).getD (J.obj [])) with
    | ok v => rfl
    | error e => rfl

theorem mcp_tool_content_text (cwd : Option String) (tool_name : String) (args : J)
    (content : List J) (h : mcp_tool_content cwd tool_name args = Except.ok content) :
    content.all isTextItem = true := by
  rw [mcp_tool_content] at h
  by_cases h1 : tool_name = "echo"
  · rw [if_pos h1] at h; injection h with hv; subst hv; rfl
  · rw [if_neg h1] at h
    by_cases h2 : tool_name = "get_workspace_info"
    · rw [if_pos h2] at h; injection h with hv; subst hv; rfl
    · rw [if_neg h2] at h
      by_cases h3 : tool_name = "closeAllDiffTabs"
      · rw [if_pos h3] at h; injection h with hv; subst hv; rfl
      · rw [if_neg h3] at h
        by_cases h4 : tool_name = "openFile"
        · rw [if_pos h4] at h; injection h with hv; subst hv; rfl
        · rw [if_neg h4] at h
          by_cases h5 : tool_name = "getCurrentSelection"
          · rw [if_pos h5] at h; injection h with hv; subst hv; rfl
          · rw [if_neg h5] at h
            by_cases h6 : tool_name = "getOpenEditors"
            · rw [if_pos h6] at h; injection h with hv; subst hv; rfl
            · rw [if_neg h6] at h
              by_cases h7 : tool_name = "getWorkspaceFolders"
              · rw [if_pos h7] at h; injection h with hv; subst hv; rfl
              · rw [if_neg h7] at h
                by_cases h8 : tool_name = "openDiff"
                · rw [if_pos h8] at h; injection h with hv; subst hv; rfl
                · rw [if_neg h8] at h
                  by_cases h9 : tool_name = "getLatestSelection"
                  · rw [if_pos h9] at h; injection h with hv; subst hv; rfl
                  · rw [if_neg h9] at h
                    by_cases h10 : tool_name = "getDiagnostics"
                    · rw [if_pos h10] at h; injection h with hv; subst hv; rfl
                    · rw [if_neg h10] at h
                      by_cases h11 : tool_name = "checkDocumentDirty"
                      · rw [if_pos h11] at h; injection h with hv; subst hv; rfl
                      · rw [if_neg h11] at h
                        by_cases h12 : tool_name = "saveDocument"
                        · rw [if_pos h12] at h; injection h with hv; subst hv; rfl
                        · rw [if_neg h12] at h
                          by_cases h13 : tool_name = "close_tab"
                          · rw [if_pos h13] at h; injection h with hv; subst hv; rfl
                          · rw [if_neg h13] at h
                            by_cases h14 : tool_name = "executeCode"
                            · rw [if_pos h14] at h; injection h with hv; subst hv; rfl
                            · rw [if_neg h14] at h
                              exact Except.noConfusion h

/-! ## Claim theorems -/

/-- C4: for a readable file and a well-formed range, the extracted selection
text follows the claimed algorithm - multi-line ranges take the first line
from `start.character` to end-of-line, middle lines verbatim, the last line
up to `end.character`, joined by `\n`; single-line ranges slice between the
two positions - so it equals the substring of the file delimited by the range
under UTF-16 character semantics (`specSelectionText`), and the `text` field
of the `selection_changed` notification built by `code_action` is exactly
that substring. -/
theorem c4_selection_text (lines : List (List Char)) (r : Range)
    (h : validRange lines r = true) :
    read_text_from_range (some lines) r = some (specSelectionText lines r) ∧
    code_action_notification (some lines) r =
      some ⟨specSelectionText lines r, r.start, r.stop, decide (r.start = r.stop)⟩ := by
  have hmain : read_text_from_range (some lines) r = some (specSelectionText lines r) := by
    rw [validRange] at h
    simp only [Bool.and_eq_true, Bool.or_eq_true, decide_eq_true_eq] at h
    obtain ⟨⟨⟨⟨hle, hlen⟩, hbs⟩, hbe⟩, hor⟩ := h
    by_cases heq : r.start.line = r.stop.line
    · have hstart_lt : r.start.line < lines.length := by omega
      have hfa := List.getElem?_eq_getElem hstart_lt
      have hbs2 : isUtf16Boundary lines[r.start.line] r.start.character = true := by
        rw [hfa] at hbs
        simpa using hbs
      have hbe2 : isUtf16Boundary lines[r.start.line] r.stop.character = true := by
        rw [← heq] at hbe
        rw [hfa] at hbe
        simpa using hbe
      have hse : r.start.character ≤ r.stop.character := by
        rcases hor with hx | hx
        · exact absurd heq hx
        · exact hx
      rw [read_single_eq lines r lines[r.start.line] heq hfa hbs2 hbe2 hse]
      rw [specSelectionText, if_pos heq, hfa]
      simp
    · have hlt : r.start.line < r.stop.line := by omega
      have hstart_lt : r.start.line < lines.length := by omega
      have hfa := List.getElem?_eq_getElem hstart_lt
      have hfz := List.getElem?_eq_getElem hlen
      have hbs2 : isUtf16Boundary lines[r.start.line] r.start.character = true := by
        rw [hfa] at hbs
        simpa using hbs
      have hbe2 : isUtf16Boundary lines[r.stop.line] r.stop.character = true := by
        rw [hfz] at hbe
        simpa using hbe
      rw [read_text_from_range, if_neg heq]
      exact read_multi_eq lines r _ _ hfa hfz hlt hlen hbs2 hbe2
  refine ⟨hmain, ?_⟩
  rw [code_action_notification, hmain]
  rfl

/-- Witness for C4 on a concrete three-line file and a multi-line range. -/
theorem c4_selection_text_witness :
    validRange c4lines c4range = true ∧
    read_text_from_range (some c4lines) c4range =
      some (specSelectionText c4lines c4range) :=
  ⟨by decide, (c4_selection_text c4lines c4range (by decide)).1⟩

/-- C5: whenever the walk's UTF-16 accumulator actually reaches the target
`t` (equivalently, `t` is a valid UTF-16 position of the line),
`char_pos_to_byte_pos` returns the byte position at which it first reaches
`t` - the byte length of the UTF-16 prefix of length `t` - and in particular
returns the byte length of the whole line when `t` is its total UTF-16
length. -/
theorem c5_conversion_result (line : List Char) (t : Nat)
    (h : isUtf16Boundary line t = true) :
    char_pos_to_byte_pos line t = some (byteLen (utf16Take line t)) ∧
    utf16Len (utf16Take line t) = t ∧
    (t = utf16Len line → char_pos_to_byte_pos line t = some (byteLen line)) := by
  obtain ⟨h1, h2⟩ := byteOffset_of_boundary line t h
  refine ⟨?_, h2, ?_⟩
  · rw [char_pos_to_byte_pos_eq]
    exact h1
  · intro ht
    subst ht
    rw [char_pos_to_byte_pos_eq, (byteOffset_of_boundary line _ h).1, utf16Take_full]

/-- Witness for C5 on a line containing a supplementary-plane character. -/
theorem c5_conversion_result_witness :
    isUtf16Boundary w_line 3 = true ∧
    char_pos_to_byte_pos w_line 3 = some (byteLen (utf16Take w_line 3)) :=
  ⟨by decide, (c5_conversion_result w_line 3 (by decide)).1⟩

/-- C6: the UTF-16-to-byte conversion is monotone on its domain, and for any
valid UTF-16 position `p` of the line it succeeds with a byte offset whose
delimited prefix has UTF-16 length exactly `p` (round trip). -/
theorem c6_monotone_invertible (line : List Char) :
    (∀ t1 t2 b1 b2, t1 ≤ t2 → char_pos_to_byte_pos line t1 = some b1 →
       char_pos_to_byte_pos line t2 = some b2 → b1 ≤ b2) ∧
    (∀ p, isUtf16Boundary line p = true →
       char_pos_to_byte_pos line p = some (byteLen (utf16Take line p)) ∧
       byteTakeChecked line (byteLen (utf16Take line p)) = some (utf16Take line p) ∧
       utf16Len (utf16Take line p) = p) := by
  constructor
  · intro t1 t2 b1 b2 hle h1 h2
    rw [char_pos_to_byte_pos_eq] at h1 h2
    exact byteOffset_mono line t1 t2 b1 b2 hle h1 h2
  · intro p hp
    obtain ⟨h1, h2⟩ := byteOffset_of_boundary line p hp
    refine ⟨?_, byteTakeChecked_utf16Take line p, h2⟩
    rw [char_pos_to_byte_pos_eq]
    exact h1

/-- Witness for C6: position 3 of `w_line` round-trips through byte offset 5. -/
theorem c6_monotone_invertible_witness :
    char_pos_to_byte_pos w_line 3 = some (byteLen (utf16Take w_line 3)) ∧
    utf16Len (utf16Take w_line 3) = 3 :=
  ⟨((c6_monotone_invertible w_line).2 3 (by decide)).1,
   ((c6_monotone_invertible w_line).2 3 (by decide)).2.2⟩

/-- C9: every `some b` returned by the conversion is a character boundary of
the line (the byte length of some prefix, hence at most the line's byte
length); a target falling strictly inside a supplementary-plane character's
two-unit span maps to that character's starting byte offset; and slicing the
line between any two returned offsets with `b1 ≤ b2` never splits a UTF-8
character (the checked slice succeeds, i.e. Rust would not panic). -/
theorem c9_conversion_safety (line : List Char) :
    (∀ t b, char_pos_to_byte_pos line t = some b →
       (∃ p q, line = p ++ q ∧ b = byteLen p) ∧ b ≤ byteLen line) ∧
    (∀ p c q k, line = p ++ c :: q → 0 < k → k < len16 c →
       char_pos_to_byte_pos line (utf16Len p + k) = some (byteLen p)) ∧
    (∀ t1 t2 b1 b2, char_pos_to_byte_pos line t1 = some b1 →
       char_pos_to_byte_pos line t2 = some b2 → b1 ≤ b2 →
       (rustSliceRange line b1 b2).isSome = true) := by
  refine ⟨?_, ?_, ?_⟩
  · intro t b hb
    rw [char_pos_to_byte_pos_eq] at hb
    obtain ⟨p, q, hpq, rfl⟩ := byteOffset_decomp line _ _ hb
    refine ⟨⟨p, q, hpq, rfl⟩, ?_⟩
    rw [hpq, byteLen_append]
    omega
  · intro p c q k hl hk1 hk2
    rw [char_pos_to_byte_pos_eq, hl]
    exact byteOffset_inside c q k hk1 hk2 p
  · intro t1 t2 b1 b2 h1 h2 hle
    exact rustSliceRange_isSome line t1 t2 b1 b2 h1 h2 hle

/-- Witness for C9: target 2 falls inside the astral character of `w_line`
and maps to its starting byte offset 1. -/
theorem c9_conversion_safety_witness :
    char_pos_to_byte_pos w_line (utf16Len ['a'] + 1) = some (byteLen ['a']) :=
  (c9_conversion_safety w_line).2.1 ['a'] (Char.ofNat 128512) ['b'] 1 (by rfl)
    (by decide) (by decide)

/-- C10 counterexample: for the readable two-line file `["ab","cd"]` and the
range `(0,99)-(1,1)`, the start-position conversion fails (99 is not a valid
UTF-16 position of "ab"), yet `read_text_from_range` returns the non-empty
string `"\nc"` - not the empty string the claim requires on conversion
failure. -/
theorem c10_counterexample :
    read_text_from_range (some [['a', 'b'], ['c', 'd']]) ⟨⟨0, 99⟩, ⟨1, 1⟩⟩ =
      some [Char.ofNat 10, 'c'] ∧
    char_pos_to_byte_pos ['a', 'b'] 99 = none ∧
    [Char.ofNat 10, 'c'] ≠ ([] : List Char) := by
  refine ⟨by decide, by decide, by decide⟩

/-- C10 as amended: extraction is total (never panics - models Rust slicing
by a checked slice and proves it always succeeds) and returns a string for
every input; it returns the empty string when the file cannot be read, and,
in the single-line case, when the line index is out of bounds, when either
position conversion fails, or when the start byte exceeds the end byte. In
the multi-line case a failed lookup or conversion only silences that line's
contribution (separator newlines from other lines may remain). -/
theorem c10_totality_and_empties (content : Option (List (List Char))) (r : Range) :
    (read_text_from_range content r).isSome = true ∧
    read_text_from_range none r = some [] ∧
    (∀ lines, content = some lines → r.start.line = r.stop.line →
      lines.length ≤ r.start.line → read_text_from_range content r = some []) ∧
    (∀ lines line, content = some lines → r.start.line = r.stop.line →
      lines[r.start.line]? = some line →
      char_pos_to_byte_pos line r.start.character = none →
      read_text_from_range content r = some []) ∧
    (∀ lines line sb, content = some lines → r.start.line = r.stop.line →
      lines[r.start.line]? = some line →
      char_pos_to_byte_pos line r.start.character = some sb →
      char_pos_to_byte_pos line r.stop.character = none →
      read_text_from_range content r = some []) ∧
    (∀ lines line sb eb, content = some lines → r.start.line = r.stop.line →
      lines[r.start.line]? = some line →
      char_pos_to_byte_pos line r.start.character = some sb →
      char_pos_to_byte_pos line r.stop.character = some eb → eb < sb →
      read_text_from_range content r = some []) := by
  refine ⟨read_text_from_range_isSome content r, rfl, ?_, ?_, ?_, ?_⟩
  · intro lines hc heq hoob
    subst hc
    rw [read_text_from_range, if_pos heq, List.getElem?_eq_none hoob]
  · intro lines line hc heq hline hconv
    subst hc
    rw [read_text_from_range, if_pos heq, hline]
    simp only []
    rw [hconv]
  · intro lines line sb hc heq hline hconv1 hconv2
    subst hc
    rw [read_text_from_range, if_pos heq, hline]
    simp only []
    rw [hconv1, hconv2]
  · intro lines line sb eb hc heq hline hconv1 hconv2 hlt
    subst hc
    rw [read_text_from_range, if_pos heq, hline]
    simp only []
    rw [hconv1, hconv2]
    simp only []
    rw [if_neg (by omega)]

/-- Witness for C10 (amended): a reversed single-line range yields the empty
string. -/
theorem c10_totality_and_empties_witness :
    read_text_from_range (some [['a', 'b']]) ⟨⟨0, 2⟩, ⟨0, 1⟩⟩ = some [] :=
  (c10_totality_and_empties (some [['a', 'b']]) ⟨⟨0, 2⟩, ⟨0, 1⟩⟩).2.2.2.2.2
    [['a', 'b']] ['a', 'b'] 2 1 rfl rfl (by decide) (by decide) (by decide) (by decide)

/-- C1 (code bug): despite the source's own "connection handler with
authentication" comment and the auth token it generates and publishes in the
lock file, `handle_connection` upgrades a syntactically valid WebSocket
handshake that carries no `x-claude-code-ide-authorization` header at all,
and registers a connection record - where the spec demands HTTP 401, an
aborted upgrade and no record (`spec_auth_ok` is the check the spec words
describe, and it rejects this request). -/
theorem c1_no_auth_check_eval :
    handle_connection "secret-token" [] "conn-1" c1req = (true, ["conn-1"]) ∧
    headerValue c1req "x-claude-code-ide-authorization" = none ∧
    spec_auth_ok "secret-token" c1req = false := by
  refine ⟨by decide, by decide, by decide⟩

/-- C3 counterexample: the lock file written by `create_lock_file` has keys
`processId, workspaceFolders, ideName, authToken, port, timestamp` - it
contains neither the key `pid` nor the key `transport` that the claim
requires. -/
theorem c3_lockfile_counterexample :
    jKeys (create_lock_file_data 1234 45000 1700000000 c3state) =
      ["processId", "workspaceFolders", "ideName", "authToken", "port", "timestamp"] ∧
    "pid" ∉ jKeys (create_lock_file_data 1234 45000 1700000000 c3state) ∧
    "transport" ∉ jKeys (create_lock_file_data 1234 45000 1700000000 c3state) := by
  refine ⟨rfl, by decide, by decide⟩

/-- C3 as amended: the lock file is pretty-printed JSON whose keys are
exactly `processId, workspaceFolders, ideName, authToken, port, timestamp`
(in that order; there is no `pid` and no `transport` key), and its
`authToken` value equals the server state's token for the lifetime of the
process (although, per C1, the WebSocket endpoint never actually validates
that token). -/
theorem c3_lockfile_keys (pid port timestamp : Nat) (st : ServerState) :
    jKeys (create_lock_file_data pid port timestamp st) =
      ["processId", "workspaceFolders", "ideName", "authToken", "port", "timestamp"] ∧
    jLookup (create_lock_file_data pid port timestamp st) "authToken" =
      some (J.str st.auth_token) := by
  exact ⟨rfl, rfl⟩

/-- C8 counterexample: a connection whose `last_pong` is 61 seconds old has
its record removed by the keepalive tick, but its socket is not closed - the
task holds no socket handle, so the claim "drops (closes) the socket" fails. -/
theorem c8_socket_not_closed :
    (ping_keepalive_tick 61 c8state).records = [] ∧
    (ping_keepalive_tick 61 c8state).sockets = ["conn-1"] ∧
    "conn-1" ∈ (ping_keepalive_tick 61 c8state).sockets := by
  refine ⟨by decide, by decide, by decide⟩

/-- C8 as amended: the keepalive task ticks every 30 seconds, and each tick
keeps exactly the records whose `last_pong` is at most 60 seconds old
(removing the stale ones), while the socket set is untouched - no socket is
closed by keepalive. -/
theorem c8_keepalive_tick (now : Nat) (st : KeepaliveState) (cid : String) (lp : Nat) :
    ((cid, lp) ∈ (ping_keepalive_tick now st).records ↔
      ((cid, lp) ∈ st.records ∧ now - lp ≤ keepalive_timeout_secs)) ∧
    (ping_keepalive_tick now st).sockets = st.sockets ∧
    keepalive_interval_secs = 30 ∧ keepalive_timeout_secs = 60 := by
  refine ⟨?_, rfl, rfl, rfl⟩
  rw [ping_keepalive_tick]
  simp only [List.mem_filter, Bool.not_eq_eq_eq_not, Bool.not_true,
    decide_eq_false_iff_not, keepalive_timeout_secs, Nat.not_lt]

/-- C2 counterexample: an `initialize` message without an id still receives a
response (with `id: null`), and a `selection_changed` message that carries an
id receives none - both directions of the claim fail on
`handle_jsonrpc_request`. -/
theorem c2_response_counterexample :
    (handle_jsonrpc_request env0 c2reqA).isSome = true ∧ c2reqA.id = none ∧
    handle_jsonrpc_request env0 c2reqB = none ∧ c2reqB.id = some (J.num 1) := by
  exact ⟨rfl, rfl, rfl, rfl⟩

/-- C2 as amended: `handle_jsonrpc_request` emits a response exactly when the
method is one of the four request methods (`initialize`, `prompts/list`,
`tools/list`, `tools/call` - even when the message has no id, in which case
the response carries `id: null`), or the method is unknown (not a
notification method) and the message has an id; every response it emits
carries the exact id of its request, and the three notification methods
never elicit a response. -/
theorem c2_response_policy (env : Env) (request : JsonRpcRequest) :
    ((handle_jsonrpc_request env request).isSome = true ↔
      (request.method ∈ requestMethods ∨
       (request.method ∉ notificationMethods ∧ request.id.isSome = true))) ∧
    (∀ resp, handle_jsonrpc_request env request = some resp → resp.id = request.id) := by
  constructor
  · rw [handle_jsonrpc_request]
    by_cases h1 : request.method = "initialize"
    · simp [h1, requestMethods]
    · rw [if_neg h1]
      by_cases h2 : request.method = "prompts/list"
      · simp [h2, requestMethods]
      · rw [if_neg h2]
        by_cases h3 : request.method = "tools/list"
        · simp [h3, requestMethods]
        · rw [if_neg h3]
          by_cases h4 : request.method = "tools/call"
          · simp [h4, requestMethods]
          · rw [if_neg h4]
            by_cases h5 : request.method = "notifications/initialized"
            · simp [h5, requestMethods, notificationMethods]
            · rw [if_neg h5]
              by_cases h6 : request.method = "selection_changed"
              · simp [h6, requestMethods, notificationMethods]
              · rw [if_neg h6]
                by_cases h7 : request.method = "at_mentioned"
                · simp [h7, requestMethods, notificationMethods]
                · rw [if_neg h7]
                  by_cases h8 : request.id.isSome = true
                  · simp [h8, requestMethods, notificationMethods, h1, h2, h3, h4, h5, h6, h7]
                  · simp [h8, requestMethods, notificationMethods, h1, h2, h3, h4, h5, h6, h7]
  · intro resp hresp
    rw [handle_jsonrpc_request] at hresp
    split_ifs at hresp <;>
      (simp only [Option.some.injEq] at hresp
       subst hresp
       first
         | rfl
         | exact handle_tools_call_ws_id env request.params request.id)

/-- Witness for C2 (amended): a `tools/list` request with id 7 is answered
and the response repeats id 7. -/
theorem c2_response_policy_witness :
    (JsonRpcResponse.mk "2.0" (some (J.obj [("tools", J.arr default_tool_schemas)]))
        none (some (J.num 7))).id = some (J.num 7) :=
  (c2_response_policy env0 ⟨"2.0", "tools/list", none, some (J.num 7)⟩).2
    ⟨"2.0", some (J.obj [("tools", J.arr default_tool_schemas)]), none, some (J.num 7)⟩
    (by rfl)

/-- C7 counterexample: a successful `tools/call` of `openFile` through the
WebSocket dispatcher returns the handler's raw JSON `{path, content}` as the
JSON-RPC result - not the `{content:[{type:"text",...}], isError:false}`
envelope the claim requires (`envelopeShape` rejects it). -/
theorem c7_envelope_counterexample :
    handle_jsonrpc_request env_read c7req =
      some ⟨"2.0", some (J.obj [("path", J.str "/a.txt"), ("content", J.str "hello")]),
        none, some (J.num 2)⟩ ∧
    envelopeShape (J.obj [("path", J.str "/a.txt"), ("content", J.str "hello")]) = false := by
  exact ⟨rfl, rfl⟩

/-- C7 as amended: the WebSocket dispatcher surfaces the tool handler's
result verbatim as the JSON-RPC result on success (so the result has
whatever shape the handler returned, with no envelope imposed), and on
failure it returns a JSON-RPC error object carrying the tool error's code,
message and data instead of a result; the `{content, isError:false}`
envelope is produced only by the separate `MCPServer::handle_tools_call`
dispatcher in mcp.rs, whose every successful result does satisfy the
envelope shape. -/
theorem c7_dispatcher_result (env : Env) (name : String) (args : J) (id : Option J) :
    (∀ v, call_tool env name args = Except.ok v →
      handle_jsonrpc_request env (toolsCallRequest name args id) =
        some ⟨"2.0", some v, none, id⟩) ∧
    (∀ te, call_tool env name args = Except.error te →
      handle_jsonrpc_request env (toolsCallRequest name args id) =
        some ⟨"2.0", none, some ⟨te.code, te.message, te.data⟩, id⟩) ∧
    (∀ cwd params v, mcp_handle_tools_call cwd params = Except.ok v →
      envelopeShape v = true) := by
  have hname : (toolsCallRequest name args id).params.bind (fun p => jGetStr p "name") =
      some name := rfl
  have hargs : (((toolsCallRequest name args id).params.bind
      (fun p => jLookup p "arguments")).getD (J.obj [])) = args := rfl
  have hstep : handle_jsonrpc_request env (toolsCallRequest name args id) =
      some (handle_tools_call_ws env (toolsCallRequest name args id).params id) := rfl
  refine ⟨?_, ?_, ?_⟩
  · intro v hv
    rw [hstep, handle_tools_call_ws, hname]
    simp only []
    rw [hargs, hv]
  · intro te hte
    rw [hstep, handle_tools_call_ws, hname]
    simp only []
    rw [hargs, hte]
  · intro cwd params v hv
    rw [mcp_handle_tools_call.eq_def] at hv
    cases params with
    | none => exact Except.noConfusion hv
    | some p =>
      simp only [] at hv
      cases hn : jGetStr p "name" with
      | none => rw [hn] at hv; exact Except.noConfusion hv
      | some tool_name =>
        rw [hn] at hv
        simp only [] at hv
        cases hc : mcp_tool_content cwd tool_name ((jLookup p "arguments").getD (J.obj [])) with
        | error e =>
          rw [hc] at hv
          exact Except.noConfusion hv
        | ok content =>
          rw [hc] at hv
          simp only [Except.map] at hv
          injection hv with hv2
          subst hv2
          have hall := mcp_tool_content_text cwd tool_name
            ((jLookup p "arguments").getD (J.obj [])) content hc
          simp [envelopeShape, hall]

/-- Witness for C7 (amended): the successful `openFile` call of the
counterexample is surfaced verbatim. -/
theorem c7_dispatcher_result_witness :
    handle_jsonrpc_request env_read c7req =
      some ⟨"2.0", some (J.obj [("path", J.str "/a.txt"), ("content", J.str "hello")]),
        none, some (J.num 2)⟩ :=
  (c7_dispatcher_result env_read "openFile" (J.obj [("path", J.str "/a.txt")])
    (some (J.num 2))).1 (J.obj [("path", J.str "/a.txt"), ("content", J.str "hello")]) rfl
